import Mathlib

/-!
Verification of the projective-geometry and layer-model core of the
perspective editor in `deepseek4.py`.

Modelling conventions:

* `QPoint` coordinates are Python ints, so points are pairs of `ℤ` (`Pt`).
  Intermediate arithmetic in the Python code runs in IEEE floats and is
  modelled by exact rational arithmetic (`ℚ`); the final `int(...)` casts
  (truncation toward zero) are modelled by `ratTrunc`.
* The purely geometric pipeline used by the constrained corner drag is
  additionally given an exact rational semantics on `PtQ` (pairs of `ℚ`),
  which is the real-arithmetic meaning of the float code; "within
  tolerance" statements of the specification become exact equalities there.
* `math.sqrt` and `math.atan2` are transcendental, so they cannot be
  computed inside `ℚ`.  Wherever the code takes a square root, the model
  takes the resulting distance as an explicit argument that the theorems
  constrain by `0 ≤ d` and `d ^ 2 = dx ^ 2 + dy ^ 2`; wherever the code
  compares `abs (atan2 det1 dot1)` with `abs (atan2 det2 dot2)`, the model
  applies an abstract comparison oracle to exactly the same four cross/dot
  products the code feeds to `atan2`, and the theorems hold for every
  oracle.
* Pixel buffers (`QImage`) are opaque handles (`Option ℕ`): the claims
  under verification only ever test their presence or absence.
-/

namespace Editor

/-- Integer point, the model of `QPoint` (whose coordinates are ints). -/
structure Pt where
  x : ℤ
  y : ℤ
deriving DecidableEq, Repr

/-- Rational point, the exact-arithmetic model of the float intermediate
values of the geometry pipeline. -/
@[ext]
structure PtQ where
  x : ℚ
  y : ℚ
deriving DecidableEq, Repr

/-- Python `int(q)`: truncation toward zero. -/
def ratTrunc (q : ℚ) : ℤ :=
  if 0 ≤ q then ⌊q⌋ else ⌈q⌉

/-- Denominator `(x1-x2)*(y3-y4) - (y1-y2)*(x3-x4)` of both
`line_intersection` variants (integer inputs). -/
def interDen (a1 a2 b1 b2 : Pt) : ℤ :=
  (a1.x - a2.x) * (b1.y - b2.y) - (a1.y - a2.y) * (b1.x - b2.x)

/-- `PerspectiveGrid.line_intersection`: intersects the infinite lines
through `(a1,a2)` and `(b1,b2)`; parallel lines give the sentinel far
point `(10000, 10000)`.  Float intermediates are modelled exactly in `ℚ`
and the final `QPoint(int(x), int(y))` by `ratTrunc`. -/
def line_intersection (a1 a2 b1 b2 : Pt) : Pt :=
  let den := interDen a1 a2 b1 b2
  if den = 0 then ⟨10000, 10000⟩
  else
    let tNum : ℤ := (a1.x - b1.x) * (b1.y - b2.y) - (a1.y - b1.y) * (b1.x - b2.x)
    let t : ℚ := (tNum : ℚ) / (den : ℚ)
    ⟨ratTrunc ((a1.x : ℚ) + t * ((a2.x : ℚ) - (a1.x : ℚ))),
     ratTrunc ((a1.y : ℚ) + t * ((a2.y : ℚ) - (a1.y : ℚ)))⟩

/-- `Canvas.line_intersection` (the constrained-dragging variant): same
formula, but parallel lines return the own endpoint of the first segment
`QPoint(x2, y2)`, i.e. `a2`. -/
def canvas_line_intersection (a1 a2 b1 b2 : Pt) : Pt :=
  let den := interDen a1 a2 b1 b2
  if den = 0 then a2
  else
    let tNum : ℤ := (a1.x - b1.x) * (b1.y - b2.y) - (a1.y - b1.y) * (b1.x - b2.x)
    let t : ℚ := (tNum : ℚ) / (den : ℚ)
    ⟨ratTrunc ((a1.x : ℚ) + t * ((a2.x : ℚ) - (a1.x : ℚ))),
     ratTrunc ((a1.y : ℚ) + t * ((a2.y : ℚ) - (a1.y : ℚ)))⟩

/-- `PerspectiveGrid.calculate_two_point_perspective`: on exactly four
points, intersect the two opposite-edge pairs and reject the pair if
either candidate lies within the 10-unit box around the origin; on any
other number of points, return the empty list. -/
def calculate_two_point_perspective (points : List Pt) : List Pt :=
  match points with
  | [p1, p2, p3, p4] =>
    let vp1 := line_intersection p1 p2 p3 p4
    let vp2 := line_intersection p2 p3 p4 p1
    if ¬(|vp1.x| < 10 ∧ |vp1.y| < 10) ∧ ¬(|vp2.x| < 10 ∧ |vp2.y| < 10) then
      [vp1, vp2]
    else []
  | _ => []

/-- Denominator of the intersection formula over `ℚ`. -/
def interDenQ (a1 a2 b1 b2 : PtQ) : ℚ :=
  (a1.x - a2.x) * (b1.y - b2.y) - (a1.y - a2.y) * (b1.x - b2.x)

/-- Shared core of both `line_intersection` variants over `ℚ` (the value
computed when the denominator is nonzero). -/
def interPointQ (a1 a2 b1 b2 : PtQ) : PtQ :=
  let den := interDenQ a1 a2 b1 b2
  let tNum := (a1.x - b1.x) * (b1.y - b2.y) - (a1.y - b1.y) * (b1.x - b2.x)
  let t := tNum / den
  ⟨a1.x + t * (a2.x - a1.x), a1.y + t * (a2.y - a1.y)⟩

/-- Exact rational semantics of `PerspectiveGrid.line_intersection`. -/
def gridLineIntersectionQ (a1 a2 b1 b2 : PtQ) : PtQ :=
  if interDenQ a1 a2 b1 b2 = 0 then ⟨10000, 10000⟩
  else interPointQ a1 a2 b1 b2

/-- Exact rational semantics of `Canvas.line_intersection`. -/
def canvasLineIntersectionQ (a1 a2 b1 b2 : PtQ) : PtQ :=
  if interDenQ a1 a2 b1 b2 = 0 then a2
  else interPointQ a1 a2 b1 b2

/-- Value `a*x + b*y + c` of the implicit equation of the infinite line
through `s` and `e`, with `a = y2-y1`, `b = x1-x2`, `c = x2*y1 - x1*y2`
exactly as in `Canvas.distance_point_to_line`. -/
def lineResidual (s e p : PtQ) : ℚ :=
  (e.y - s.y) * p.x + (s.x - e.x) * p.y + (e.x * s.y - s.x * e.y)

/-- Cross product `(b - a) × (c - a)`: zero iff `a`, `b`, `c` are
collinear. -/
def col (a b c : PtQ) : ℚ :=
  (b.x - a.x) * (c.y - a.y) - (b.y - a.y) * (c.x - a.x)

/-- Exact rational semantics of `Canvas.get_point_along_line`: walk
`len` units from `e` in the direction `e - s`.  The code computes
`dist = sqrt(dx^2 + dy^2)`; since square roots leave `ℚ`, `dist` is an
explicit argument, constrained in the theorems by `0 < dist` and
`dist ^ 2 = dx ^ 2 + dy ^ 2`. -/
def getPointAlongLineQ (s e : PtQ) (len dist : ℚ) : PtQ :=
  if e.x - s.x = 0 ∧ e.y - s.y = 0 then e
  else if dist = 0 then e
  else ⟨e.x + (e.x - s.x) * (len / dist), e.y + (e.y - s.y) * (len / dist)⟩

/-- Quadrilateral: the four `warp_points` in index order. -/
structure QuadQ where
  q0 : PtQ
  q1 : PtQ
  q2 : PtQ
  q3 : PtQ
deriving DecidableEq, Repr

/-- The constrained corner-drag update of `Canvas.mouseMoveEvent`
(exact rational semantics).  `i` is the dragged corner index, `pos` the
new position of that corner, `vp1`/`vp2` the `source_vp` pair of the layer,
`w`/`h` its `original_width`/`original_height`, and `d1`/`d2` stand for
the square-root distances `dist(pos, vp1)`/`dist(pos, vp2)` computed
inside `get_point_along_line` (see `getPointAlongLineQ`).  Each branch
rebuilds all four corners from the dragged one exactly as the four
`elif drag_idx == _` branches of the code do; since the result depends
only on the dragged corner, the previous quadrilateral is not an
argument.  The final `else` branch is the `drag_idx == 3` case (on
`Fin 4` no other value remains). -/
def constrainedDragUpdate (i : Fin 4) (vp1 vp2 : PtQ) (w h : ℚ)
    (pos : PtQ) (d1 d2 : ℚ) : QuadQ :=
  if i = 0 then
    let p2 := getPointAlongLineQ vp1 pos w d1
    let p3 := getPointAlongLineQ vp2 pos h d2
    ⟨pos, p2, canvasLineIntersectionQ p2 vp2 p3 vp1, p3⟩
  else if i = 1 then
    let p1 := getPointAlongLineQ vp1 pos (-w) d1
    let p3 := getPointAlongLineQ vp2 pos h d2
    ⟨p1, pos, p3, canvasLineIntersectionQ p1 vp2 p3 vp1⟩
  else if i = 2 then
    let p4 := getPointAlongLineQ vp1 pos (-w) d1
    let p2 := getPointAlongLineQ vp2 pos (-h) d2
    ⟨canvasLineIntersectionQ p2 vp1 p4 vp2, p2, pos, p4⟩
  else
    let p3 := getPointAlongLineQ vp1 pos w d1
    let p1 := getPointAlongLineQ vp2 pos (-h) d2
    ⟨p1, canvasLineIntersectionQ p1 vp1 p3 vp2, p3, pos⟩

/-- Denominator of the one `Canvas.line_intersection` call inside the
corner-drag branch for index `i` (arguments exactly as in the code). -/
def innerDen (i : Fin 4) (vp1 vp2 : PtQ) (w h : ℚ) (pos : PtQ)
    (d1 d2 : ℚ) : ℚ :=
  if i = 0 then
    interDenQ (getPointAlongLineQ vp1 pos w d1) vp2
      (getPointAlongLineQ vp2 pos h d2) vp1
  else if i = 1 then
    interDenQ (getPointAlongLineQ vp1 pos (-w) d1) vp2
      (getPointAlongLineQ vp2 pos h d2) vp1
  else if i = 2 then
    interDenQ (getPointAlongLineQ vp2 pos (-h) d2) vp1
      (getPointAlongLineQ vp1 pos (-w) d1) vp2
  else
    interDenQ (getPointAlongLineQ vp2 pos (-h) d2) vp1
      (getPointAlongLineQ vp1 pos w d1) vp2

/-- Recompute the two vanishing points from a quadrilateral by
opposite-edge intersections, in the order used by
`calculate_two_point_perspective`: `(line(q0,q1) ∩ line(q2,q3),
line(q1,q2) ∩ line(q3,q0))` (exact rational semantics). -/
def recomputeVPs (q : QuadQ) : PtQ × PtQ :=
  (gridLineIntersectionQ q.q0 q.q1 q.q2 q.q3,
   gridLineIntersectionQ q.q1 q.q2 q.q3 q.q0)

/-- Layer record: the fields of `PerspectiveLayer`.  Images are opaque
handles.  `initial_vp1_distance` is not assigned in `__init__` (only
`initial_vp2_distance` is); it is first assigned in
`toggle_layer_drag_mode` before any read, so the model gives it the
same default `1.0`. -/
structure PerspectiveLayer where
  name : String
  original_image : Option ℕ
  warped_image : Option ℕ
  visible : Bool
  points : List Pt
  warp_points : List Pt
  z_order : ℤ
  opacity : ℚ
  selection_points : List Pt
  position : Pt
  source_vp : List Pt
  original_width : ℤ
  original_height : ℤ
  drag_offset : Pt
  layer_drag_mode : Bool
  layer_scale : ℚ
  layer_position : Pt
  drag_layer_image : Option ℕ
  initial_center : Pt
  initial_vp1_distance : ℚ
  initial_vp2_distance : ℚ
deriving DecidableEq, Repr

/-- `PerspectiveLayer.__init__(name)`. -/
def mkPerspectiveLayer (name : String) : PerspectiveLayer :=
  { name := name
    original_image := none
    warped_image := none
    visible := true
    points := []
    warp_points := []
    z_order := 0
    opacity := 1
    selection_points := []
    position := ⟨0, 0⟩
    source_vp := []
    original_width := 0
    original_height := 0
    drag_offset := ⟨0, 0⟩
    layer_drag_mode := false
    layer_scale := 1
    layer_position := ⟨0, 0⟩
    drag_layer_image := none
    initial_center := ⟨0, 0⟩
    initial_vp1_distance := 1
    initial_vp2_distance := 1 }

/-- The `VanishingPointEditor` state touched by the layer-stack and
point-clearing operations: the layer list, `current_layer_idx` (a Python
int, `-1` initially) and the scene-wide `grid.primary_vp`. -/
structure EditorState where
  layers : List PerspectiveLayer
  current_layer_idx : ℤ
  primary_vp : List Pt
deriving DecidableEq, Repr

/-- `VanishingPointEditor.add_layer`: append a fresh layer with
`z_order = len(layers)` and select it. -/
def add_layer (s : EditorState) (name : String) : EditorState :=
  let newLayer := { mkPerspectiveLayer name with z_order := (s.layers.length : ℤ) }
  { s with
    layers := s.layers ++ [newLayer]
    current_layer_idx := (s.layers.length : ℤ) }

/-- Net effect on the layer list of `move_layer_up` at index `i` (and of
`move_layer_down` at index `i + 1`): position `i` receives the old layer
`i+1` with `z_order` decremented, position `i+1` the old layer `i` with
`z_order` incremented. -/
def swapAdjZ : List PerspectiveLayer → ℕ → List PerspectiveLayer
  | a :: b :: rest, 0 =>
      { b with z_order := b.z_order - 1 } :: { a with z_order := a.z_order + 1 } :: rest
  | a :: rest, n + 1 => a :: swapAdjZ rest n
  | l, _ => l

/-- `VanishingPointEditor.move_layer_up`: guarded by
`0 <= current_layer_idx < len(layers) - 1`. -/
def move_layer_up (s : EditorState) : EditorState :=
  if 0 ≤ s.current_layer_idx ∧ s.current_layer_idx < (s.layers.length : ℤ) - 1 then
    { s with
      layers := swapAdjZ s.layers s.current_layer_idx.toNat
      current_layer_idx := s.current_layer_idx + 1 }
  else s

/-- `VanishingPointEditor.move_layer_down`: guarded by
`current_layer_idx > 0` and `current_layer_idx < len(layers)`. -/
def move_layer_down (s : EditorState) : EditorState :=
  if 0 < s.current_layer_idx ∧ s.current_layer_idx < (s.layers.length : ℤ) then
    { s with
      layers := swapAdjZ s.layers (s.current_layer_idx.toNat - 1)
      current_layer_idx := s.current_layer_idx - 1 }
  else s

/-- Replace the `i`-th element of a list by `f` of it (identity out of
range); models an in-place field update of one layer of the list. -/
def modifyAt (f : PerspectiveLayer → PerspectiveLayer) :
    List PerspectiveLayer → ℕ → List PerspectiveLayer
  | a :: rest, 0 => f a :: rest
  | a :: rest, n + 1 => a :: modifyAt f rest n
  | [], _ => []

/-- `VanishingPointEditor.clear_points`: when a current layer exists
(`get_current_layer` guard `0 <= current_layer_idx < len(layers)`),
empty its `points` and `selection_points` and empty the scene-wide
`grid.primary_vp`. -/
def clear_points (s : EditorState) : EditorState :=
  if 0 ≤ s.current_layer_idx ∧ s.current_layer_idx < (s.layers.length : ℤ) then
    { s with
      layers := modifyAt (fun l => { l with points := [], selection_points := [] })
        s.layers s.current_layer_idx.toNat
      primary_vp := [] }
  else s

/-- Difference of two integer points. -/
def ptSub (a b : Pt) : Pt :=
  ⟨a.x - b.x, a.y - b.y⟩

/-- Dot product of two integer vectors (`dot1`/`dot2` of the code). -/
def dot2d (a b : Pt) : ℤ :=
  a.x * b.x + a.y * b.y

/-- 2D cross product (`det1`/`det2` of the code). -/
def det2d (a b : Pt) : ℤ :=
  a.x * b.y - a.y * b.x

/-- The layer-drag branch of `Canvas.mouseMoveEvent` (the part guarded
by `layer.layer_drag_mode and layer.drag_layer_image`): move the layer
anchor to `scene_pos - drag_offset`; when the scene holds at least two
vanishing points, overwrite `layer_scale` with the clamped distance
ratio to the chosen vanishing point.  `cd1`/`cd2` stand for the
square-root distances from the new anchor to `vp1`/`vp2`, and
`angleCmp det1 dot1 det2 dot2` for the comparison in the code
`abs(atan2(det1, dot1)) < abs(atan2(det2, dot2))` (see the module
docstring). -/
def layerDragMoveUpdate (primary_vp : List Pt) (cd1 cd2 : ℚ)
    (angleCmp : ℤ → ℤ → ℤ → ℤ → Bool)
    (lyr : PerspectiveLayer) (scene_pos : Pt) : PerspectiveLayer :=
  let pos : Pt := ⟨scene_pos.x - lyr.drag_offset.x, scene_pos.y - lyr.drag_offset.y⟩
  match primary_vp with
  | vp1 :: vp2 :: _ =>
    let vecA := ptSub pos lyr.initial_center
    let vecB1 := ptSub vp1 lyr.initial_center
    let vecB2 := ptSub vp2 lyr.initial_center
    let sf : ℚ :=
      if angleCmp (det2d vecA vecB1) (dot2d vecA vecB1)
          (det2d vecA vecB2) (dot2d vecA vecB2) then
        if lyr.initial_vp1_distance ≠ 0 then cd1 / lyr.initial_vp1_distance else 1
      else
        if lyr.initial_vp2_distance ≠ 0 then cd2 / lyr.initial_vp2_distance else 1
    { lyr with
      layer_position := pos
      layer_scale := max (1 / 10) (min sf 2) }
  | _ => { lyr with layer_position := pos }

/-- Free-drag scale rule as the specification words it: the ratio of the
current to the initial distance to the chosen vanishing point, `1.0`
when the stored initial distance is zero, clamped to `[0.1, 2.0]`.
Written from the spec to be compared with `layerDragMoveUpdate`. -/
def specFreeDragScale (chooseVp1 : Bool) (cd1 cd2 init1 init2 : ℚ) : ℚ :=
  let ratio :=
    if chooseVp1 then (if init1 = 0 then 1 else cd1 / init1)
    else (if init2 = 0 then 1 else cd2 / init2)
  max (1 / 10) (min ratio 2)

/-- One wheel zoom step of `Canvas.wheelEvent` in layer-drag mode:
multiply by `1.1` (scroll up) or `0.9` (scroll down), then clamp to
`[0.1, 5.0]`. -/
def wheelStep (s : ℚ) (up : Bool) : ℚ :=
  max (1 / 10) (min (s * (if up then 11 / 10 else 9 / 10)) 5)

/-- Inputs of one free-drag move sample: a scene with two vanishing
points, the two (square-root) distances, the angle-comparison oracle and
the new mouse position. -/
structure DragSample where
  vp1 : Pt
  vp2 : Pt
  cd1 : ℚ
  cd2 : ℚ
  angleCmp : ℤ → ℤ → ℤ → ℤ → Bool
  scene_pos : Pt

/-- Apply one free-drag move sample to a layer. -/
def applyDragSample (lyr : PerspectiveLayer) (smp : DragSample) : PerspectiveLayer :=
  layerDragMoveUpdate [smp.vp1, smp.vp2] smp.cd1 smp.cd2 smp.angleCmp lyr smp.scene_pos

/-- Operations on the layer stack: add a layer, move the current layer
up or down, and select a layer (the list-click handler
`select_layer`, which just sets `current_layer_idx`). -/
inductive StackOp where
  | add (name : String)
  | up
  | down
  | select (i : ℤ)

/-- Apply one stack operation. -/
def applyStackOp (s : EditorState) : StackOp → EditorState
  | .add name => add_layer s name
  | .up => move_layer_up s
  | .down => move_layer_down s
  | .select i => { s with current_layer_idx := i }

/-- Run a sequence of stack operations from the initial editor state
(no layers, `current_layer_idx = -1`, no vanishing points). -/
def runStackOps (ops : List StackOp) : EditorState :=
  ops.foldl applyStackOp ⟨[], -1, []⟩

/-- The z-orders of the layers in `l` are `n, n+1, n+2, ...` in list
order. -/
def zInvFrom : ℤ → List PerspectiveLayer → Prop
  | _, [] => True
  | n, a :: rest => a.z_order = n ∧ zInvFrom (n + 1) rest

/-- Width of the axis-aligned bounding box of four points
(`max_x - min_x` in `copy_selection_to_drag_layer`). -/
def bboxWidth (p1 p2 p3 p4 : Pt) : ℤ :=
  max p1.x (max p2.x (max p3.x p4.x)) - min p1.x (min p2.x (min p3.x p4.x))

/-- Height of the axis-aligned bounding box of four points. -/
def bboxHeight (p1 p2 p3 p4 : Pt) : ℤ :=
  max p1.y (max p2.y (max p3.y p4.y)) - min p1.y (min p2.y (min p3.y p4.y))

/-- Control flow of `Canvas.copy_selection_to_drag_layer` up to and
including the bounding-box guard.  The produced drag image is modelled
by its dimensions (`none` = `drag_layer_image` left `None`).  The code
first angularly sorts the four selection points (`sort_points`, a
permutation), which leaves the coordinate-wise min/max — hence the
bounding box — unchanged, so the model takes min/max over the input
points directly.  The pixel pipeline after the guard (a cv2 warp into a
`width × height` buffer) is out of scope: a passed guard is modelled by
`some (width, height)`. -/
def copy_selection_to_drag_layer (selection_points : List Pt)
    (hasPixmap : Bool) : Option (ℤ × ℤ) :=
  if selection_points.length ≠ 4 ∨ hasPixmap = false then none
  else
    match selection_points with
    | [p1, p2, p3, p4] =>
      let w := bboxWidth p1 p2 p3 p4
      let hgt := bboxHeight p1 p2 p3 p4
      if w ≤ 0 ∨ hgt ≤ 0 then none
      else some (w, hgt)
    | _ => none

/-- Full effect of `clear_points` on a state with a valid current layer:
the scene vanishing-point pair is emptied, the `points` of the current layer
and `selection_points` are emptied, every other field of the current
layer and every other layer is untouched, and a subsequent free-drag
move derives no scale from the emptied vanishing-point list. -/
def clearPointsEffect (s : EditorState) : Prop :=
  let s2 := clear_points s
  let i := s.current_layer_idx.toNat
  let dfl := mkPerspectiveLayer ""
  s2.primary_vp = [] ∧
  (s2.layers.getD i dfl).points = [] ∧
  (s2.layers.getD i dfl).selection_points = [] ∧
  (s2.layers.getD i dfl).name = (s.layers.getD i dfl).name ∧
  (s2.layers.getD i dfl).original_image = (s.layers.getD i dfl).original_image ∧
  (s2.layers.getD i dfl).warped_image = (s.layers.getD i dfl).warped_image ∧
  (s2.layers.getD i dfl).visible = (s.layers.getD i dfl).visible ∧
  (s2.layers.getD i dfl).warp_points = (s.layers.getD i dfl).warp_points ∧
  (s2.layers.getD i dfl).z_order = (s.layers.getD i dfl).z_order ∧
  (s2.layers.getD i dfl).opacity = (s.layers.getD i dfl).opacity ∧
  (s2.layers.getD i dfl).position = (s.layers.getD i dfl).position ∧
  (s2.layers.getD i dfl).source_vp = (s.layers.getD i dfl).source_vp ∧
  (s2.layers.getD i dfl).original_width = (s.layers.getD i dfl).original_width ∧
  (s2.layers.getD i dfl).original_height = (s.layers.getD i dfl).original_height ∧
  (s2.layers.getD i dfl).drag_offset = (s.layers.getD i dfl).drag_offset ∧
  (s2.layers.getD i dfl).layer_drag_mode = (s.layers.getD i dfl).layer_drag_mode ∧
  (s2.layers.getD i dfl).layer_scale = (s.layers.getD i dfl).layer_scale ∧
  (s2.layers.getD i dfl).layer_position = (s.layers.getD i dfl).layer_position ∧
  (s2.layers.getD i dfl).drag_layer_image = (s.layers.getD i dfl).drag_layer_image ∧
  (s2.layers.getD i dfl).initial_center = (s.layers.getD i dfl).initial_center ∧
  (s2.layers.getD i dfl).initial_vp1_distance = (s.layers.getD i dfl).initial_vp1_distance ∧
  (s2.layers.getD i dfl).initial_vp2_distance = (s.layers.getD i dfl).initial_vp2_distance ∧
  (∀ k : ℕ, k ≠ i → s2.layers.getD k dfl = s.layers.getD k dfl) ∧
  s2.current_layer_idx = s.current_layer_idx ∧
  s2.layers.length = s.layers.length ∧
  (∀ (cd1 cd2 : ℚ) (angleCmp : ℤ → ℤ → ℤ → ℤ → Bool)
      (lyr : PerspectiveLayer) (p : Pt),
    (layerDragMoveUpdate s2.primary_vp cd1 cd2 angleCmp lyr p).layer_scale =
      lyr.layer_scale)

/-! Helper lemmas about the rational intersection core. -/

theorem col_rot (a b c : PtQ) : col b c a = col a b c := by
  simp only [col]; ring

theorem col_swap_right (a b c : PtQ) : col a c b = -col a b c := by
  simp only [col]; ring

theorem col_swap_left (a b c : PtQ) : col b a c = -col a b c := by
  simp only [col]; ring

theorem interPointQ_col_left (a1 a2 b1 b2 : PtQ) :
    col a1 a2 (interPointQ a1 a2 b1 b2) = 0 := by
  simp only [interPointQ, interDenQ, col]
  ring

theorem interPointQ_col_right (a1 a2 b1 b2 : PtQ)
    (hden : interDenQ a1 a2 b1 b2 ≠ 0) :
    col b1 b2 (interPointQ a1 a2 b1 b2) = 0 := by
  simp only [interDenQ] at hden
  simp only [interPointQ, interDenQ, col]
  field_simp
  ring

theorem interPointQ_eq_of_col (a1 a2 b1 b2 v : PtQ)
    (hden : interDenQ a1 a2 b1 b2 ≠ 0)
    (hA : col a1 a2 v = 0) (hB : col b1 b2 v = 0) :
    interPointQ a1 a2 b1 b2 = v := by
  simp only [interDenQ, col] at hden hA hB
  have hx : (interPointQ a1 a2 b1 b2).x = v.x := by
    simp only [interPointQ, interDenQ]
    field_simp
    linear_combination (-(b2.x - b1.x)) * hA + (a2.x - a1.x) * hB
  have hy : (interPointQ a1 a2 b1 b2).y = v.y := by
    simp only [interPointQ, interDenQ]
    field_simp
    linear_combination (-(b2.y - b1.y)) * hA + (a2.y - a1.y) * hB
  cases v
  cases h : interPointQ a1 a2 b1 b2
  simp_all

theorem canvasInterQ_col_left (a1 a2 b1 b2 : PtQ)
    (hden : interDenQ a1 a2 b1 b2 ≠ 0) :
    col a1 a2 (canvasLineIntersectionQ a1 a2 b1 b2) = 0 := by
  unfold canvasLineIntersectionQ
  rw [if_neg hden]
  exact interPointQ_col_left a1 a2 b1 b2

theorem canvasInterQ_col_right (a1 a2 b1 b2 : PtQ)
    (hden : interDenQ a1 a2 b1 b2 ≠ 0) :
    col b1 b2 (canvasLineIntersectionQ a1 a2 b1 b2) = 0 := by
  unfold canvasLineIntersectionQ
  rw [if_neg hden]
  exact interPointQ_col_right a1 a2 b1 b2 hden

theorem gridInterQ_eq_of_col (a1 a2 b1 b2 v : PtQ)
    (hden : interDenQ a1 a2 b1 b2 ≠ 0)
    (hA : col a1 a2 v = 0) (hB : col b1 b2 v = 0) :
    gridLineIntersectionQ a1 a2 b1 b2 = v := by
  unfold gridLineIntersectionQ
  rw [if_neg hden]
  exact interPointQ_eq_of_col a1 a2 b1 b2 v hden hA hB

theorem getPointAlongLineQ_col (s e : PtQ) (len d : ℚ) :
    col e (getPointAlongLineQ s e len d) s = 0 := by
  unfold getPointAlongLineQ
  split_ifs
  · simp only [col]; ring
  · simp only [col]; ring
  · simp only [col]; ring

theorem recomputeVPs_eq_of_col (q : QuadQ) (v1 v2 : PtQ)
    (hr1 : interDenQ q.q0 q.q1 q.q2 q.q3 ≠ 0)
    (hr2 : interDenQ q.q1 q.q2 q.q3 q.q0 ≠ 0)
    (h01 : col q.q0 q.q1 v1 = 0) (h23 : col q.q2 q.q3 v1 = 0)
    (h12 : col q.q1 q.q2 v2 = 0) (h30 : col q.q3 q.q0 v2 = 0) :
    recomputeVPs q = (v1, v2) := by
  unfold recomputeVPs
  rw [gridInterQ_eq_of_col _ _ _ _ _ hr1 h01 h23,
    gridInterQ_eq_of_col _ _ _ _ _ hr2 h12 h30]

theorem col_zero_rot {a b c : PtQ} (h : col a b c = 0) : col b c a = 0 := by
  rw [col_rot]; exact h

theorem col_zero_swap_left {a b c : PtQ} (h : col a b c = 0) : col b a c = 0 := by
  rw [col_swap_left, h, neg_zero]

theorem col_zero_swap_right {a b c : PtQ} (h : col a b c = 0) : col a c b = 0 := by
  rw [col_swap_right, h, neg_zero]

/-- C1: for a layer with four `warp_points` and a two-point `source_vp`
pair, dragging any one corner (index 0-3) to any new position through
the constrained update and recomputing the two vanishing points of the
resulting quadrilateral by opposite-edge intersections returns exactly
the source pair `(vp1, vp2)` (exact rational semantics; the float/int
code matches within rounding tolerance).  The hypotheses state that the
dragged configuration is non-degenerate: the square-root distances
feeding `get_point_along_line` are the true positive distances from the
dragged corner to the vanishing points, and neither the inner
intersection of the update nor the two recomputation intersections is a
parallel (zero-denominator) case. -/
theorem constrained_drag_preserves_vanishing_points
    (i : Fin 4) (vp1 vp2 pos : PtQ) (w h d1 d2 : ℚ)
    (hd1 : 0 < d1) (hd2 : 0 < d2)
    (hsq1 : d1 ^ 2 = (pos.x - vp1.x) ^ 2 + (pos.y - vp1.y) ^ 2)
    (hsq2 : d2 ^ 2 = (pos.x - vp2.x) ^ 2 + (pos.y - vp2.y) ^ 2)
    (hinner : innerDen i vp1 vp2 w h pos d1 d2 ≠ 0)
    (hr1 : interDenQ (constrainedDragUpdate i vp1 vp2 w h pos d1 d2).q0
      (constrainedDragUpdate i vp1 vp2 w h pos d1 d2).q1
      (constrainedDragUpdate i vp1 vp2 w h pos d1 d2).q2
      (constrainedDragUpdate i vp1 vp2 w h pos d1 d2).q3 ≠ 0)
    (hr2 : interDenQ (constrainedDragUpdate i vp1 vp2 w h pos d1 d2).q1
      (constrainedDragUpdate i vp1 vp2 w h pos d1 d2).q2
      (constrainedDragUpdate i vp1 vp2 w h pos d1 d2).q3
      (constrainedDragUpdate i vp1 vp2 w h pos d1 d2).q0 ≠ 0) :
    recomputeVPs (constrainedDragUpdate i vp1 vp2 w h pos d1 d2) = (vp1, vp2) := by
  fin_cases i
  · refine recomputeVPs_eq_of_col _ _ _ hr1 hr2 ?_ ?_ ?_ ?_
    · exact getPointAlongLineQ_col vp1 pos w d1
    · exact col_zero_rot (col_zero_rot (canvasInterQ_col_right _ _ _ _ hinner))
    · exact col_zero_swap_right (canvasInterQ_col_left _ _ _ _ hinner)
    · exact col_zero_swap_left (getPointAlongLineQ_col vp2 pos h d2)
  · refine recomputeVPs_eq_of_col _ _ _ hr1 hr2 ?_ ?_ ?_ ?_
    · exact col_zero_swap_left (getPointAlongLineQ_col vp1 pos (-w) d1)
    · exact col_zero_swap_right (canvasInterQ_col_right _ _ _ _ hinner)
    · exact getPointAlongLineQ_col vp2 pos h d2
    · exact col_zero_rot (col_zero_rot (canvasInterQ_col_left _ _ _ _ hinner))
  · refine recomputeVPs_eq_of_col _ _ _ hr1 hr2 ?_ ?_ ?_ ?_
    · exact col_zero_rot (col_zero_rot (canvasInterQ_col_left _ _ _ _ hinner))
    · exact getPointAlongLineQ_col vp1 pos (-w) d1
    · exact col_zero_swap_left (getPointAlongLineQ_col vp2 pos (-h) d2)
    · exact col_zero_swap_right (canvasInterQ_col_right _ _ _ _ hinner)
  · refine recomputeVPs_eq_of_col _ _ _ hr1 hr2 ?_ ?_ ?_ ?_
    · exact col_zero_swap_right (canvasInterQ_col_left _ _ _ _ hinner)
    · exact col_zero_swap_left (getPointAlongLineQ_col vp1 pos w d1)
    · exact col_zero_rot (col_zero_rot (canvasInterQ_col_right _ _ _ _ hinner))
    · exact getPointAlongLineQ_col vp2 pos (-h) d2

theorem constrained_drag_preserves_vanishing_points_witness :
    ((0:ℚ) < 5 ∧
     innerDen 0 ⟨-5, 0⟩ ⟨0, 5⟩ 1 1 ⟨0, 0⟩ 5 5 ≠ 0 ∧
     interDenQ (constrainedDragUpdate 0 ⟨-5, 0⟩ ⟨0, 5⟩ 1 1 ⟨0, 0⟩ 5 5).q0
       (constrainedDragUpdate 0 ⟨-5, 0⟩ ⟨0, 5⟩ 1 1 ⟨0, 0⟩ 5 5).q1
       (constrainedDragUpdate 0 ⟨-5, 0⟩ ⟨0, 5⟩ 1 1 ⟨0, 0⟩ 5 5).q2
       (constrainedDragUpdate 0 ⟨-5, 0⟩ ⟨0, 5⟩ 1 1 ⟨0, 0⟩ 5 5).q3 ≠ 0 ∧
     interDenQ (constrainedDragUpdate 0 ⟨-5, 0⟩ ⟨0, 5⟩ 1 1 ⟨0, 0⟩ 5 5).q1
       (constrainedDragUpdate 0 ⟨-5, 0⟩ ⟨0, 5⟩ 1 1 ⟨0, 0⟩ 5 5).q2
       (constrainedDragUpdate 0 ⟨-5, 0⟩ ⟨0, 5⟩ 1 1 ⟨0, 0⟩ 5 5).q3
       (constrainedDragUpdate 0 ⟨-5, 0⟩ ⟨0, 5⟩ 1 1 ⟨0, 0⟩ 5 5).q0 ≠ 0) ∧
    recomputeVPs (constrainedDragUpdate 0 ⟨-5, 0⟩ ⟨0, 5⟩ 1 1 ⟨0, 0⟩ 5 5) =
      (⟨-5, 0⟩, ⟨0, 5⟩) :=
  ⟨⟨by norm_num,
    by norm_num [innerDen, interDenQ, getPointAlongLineQ],
    by norm_num [constrainedDragUpdate, interDenQ, getPointAlongLineQ,
      canvasLineIntersectionQ, interPointQ],
    by norm_num [constrainedDragUpdate, interDenQ, getPointAlongLineQ,
      canvasLineIntersectionQ, interPointQ]⟩,
   constrained_drag_preserves_vanishing_points 0 ⟨-5, 0⟩ ⟨0, 5⟩ ⟨0, 0⟩ 1 1 5 5
     (by norm_num) (by norm_num)
     (by norm_num) (by norm_num)
     (by norm_num [innerDen, interDenQ, getPointAlongLineQ])
     (by norm_num [constrainedDragUpdate, interDenQ, getPointAlongLineQ,
       canvasLineIntersectionQ, interPointQ])
     (by norm_num [constrainedDragUpdate, interDenQ, getPointAlongLineQ,
       canvasLineIntersectionQ, interPointQ])⟩

/-- C5: for every two non-parallel line segments (nonzero denominator),
the point returned by `line_intersection` satisfies both infinite-line
equations: substituting it back into the `a*x + b*y + c` form of each line
gives residual zero (exactly, in the rational semantics; the float code
matches within rounding). -/
theorem line_intersection_on_both_lines (a1 a2 b1 b2 : PtQ)
    (hden : interDenQ a1 a2 b1 b2 ≠ 0) :
    lineResidual a1 a2 (gridLineIntersectionQ a1 a2 b1 b2) = 0 ∧
    lineResidual b1 b2 (gridLineIntersectionQ a1 a2 b1 b2) = 0 := by
  unfold gridLineIntersectionQ
  rw [if_neg hden]
  constructor
  · simp only [interPointQ, interDenQ, lineResidual]
    ring
  · simp only [interDenQ] at hden
    simp only [interPointQ, interDenQ, lineResidual]
    field_simp
    ring

theorem line_intersection_on_both_lines_witness :
    interDenQ ⟨0, 0⟩ ⟨1, 0⟩ ⟨0, 1⟩ ⟨1, 2⟩ ≠ 0 ∧
    (lineResidual ⟨0, 0⟩ ⟨1, 0⟩ (gridLineIntersectionQ ⟨0, 0⟩ ⟨1, 0⟩ ⟨0, 1⟩ ⟨1, 2⟩) = 0 ∧
     lineResidual ⟨0, 1⟩ ⟨1, 2⟩ (gridLineIntersectionQ ⟨0, 0⟩ ⟨1, 0⟩ ⟨0, 1⟩ ⟨1, 2⟩) = 0) :=
  ⟨by norm_num [interDenQ],
   line_intersection_on_both_lines _ _ _ _ (by norm_num [interDenQ])⟩

/-- C8: when the denominator is exactly zero (parallel or coincident
lines), the vanishing-point variant returns the sentinel far point
`(10000, 10000)` and the constrained-dragging variant returns the first
own endpoint `(x2, y2)` of the first segment; neither fails. -/
theorem parallel_lines_fallbacks (a1 a2 b1 b2 : Pt)
    (hden : interDen a1 a2 b1 b2 = 0) :
    line_intersection a1 a2 b1 b2 = ⟨10000, 10000⟩ ∧
    canvas_line_intersection a1 a2 b1 b2 = a2 := by
  constructor
  · unfold line_intersection
    rw [if_pos hden]
  · unfold canvas_line_intersection
    rw [if_pos hden]

theorem parallel_lines_fallbacks_witness :
    interDen ⟨0, 0⟩ ⟨1, 0⟩ ⟨0, 1⟩ ⟨1, 1⟩ = 0 ∧
    (line_intersection ⟨0, 0⟩ ⟨1, 0⟩ ⟨0, 1⟩ ⟨1, 1⟩ = ⟨10000, 10000⟩ ∧
     canvas_line_intersection ⟨0, 0⟩ ⟨1, 0⟩ ⟨0, 1⟩ ⟨1, 1⟩ = ⟨1, 0⟩) :=
  ⟨by decide, parallel_lines_fallbacks _ _ _ _ (by decide)⟩

/-- C2: vanishing-point computation returns the empty pair on any input
list whose length is not 4; on exactly four points `p1..p4` it returns
the pair of opposite-edge intersections, except that the whole pair is
rejected whenever either candidate has both `|x| < 10` and `|y| < 10`. -/
theorem calculate_two_point_perspective_spec (points : List Pt) :
    (points.length ≠ 4 → calculate_two_point_perspective points = []) ∧
    (∀ p1 p2 p3 p4 : Pt, points = [p1, p2, p3, p4] →
      calculate_two_point_perspective points =
        (let vp1 := line_intersection p1 p2 p3 p4
         let vp2 := line_intersection p2 p3 p4 p1
         if (|vp1.x| < 10 ∧ |vp1.y| < 10) ∨ (|vp2.x| < 10 ∧ |vp2.y| < 10) then []
         else [vp1, vp2])) := by
  constructor
  · intro hlen
    rcases points with _ | ⟨a, _ | ⟨b, _ | ⟨c, _ | ⟨d, _ | ⟨e, rest⟩⟩⟩⟩⟩ <;>
      simp_all [calculate_two_point_perspective]
  · rintro p1 p2 p3 p4 rfl
    simp only [calculate_two_point_perspective]
    split_ifs <;> tauto

theorem calculate_two_point_perspective_witness :
    calculate_two_point_perspective [⟨0, 0⟩, ⟨4, 0⟩, ⟨4, 4⟩, ⟨0, 4⟩] =
      (let vp1 := line_intersection ⟨0, 0⟩ ⟨4, 0⟩ ⟨4, 4⟩ ⟨0, 4⟩
       let vp2 := line_intersection ⟨4, 0⟩ ⟨4, 4⟩ ⟨0, 4⟩ ⟨0, 0⟩
       if (|vp1.x| < 10 ∧ |vp1.y| < 10) ∨ (|vp2.x| < 10 ∧ |vp2.y| < 10) then []
       else [vp1, vp2]) :=
  (calculate_two_point_perspective_spec _).2 ⟨0, 0⟩ ⟨4, 0⟩ ⟨4, 4⟩ ⟨0, 4⟩ rfl

/-- C7: whenever the axis-aligned bounding box of the four selection
points has zero or negative width or height, the
extract-selection-to-drag-layer operation aborts with the drag image
left absent, without producing an image. -/
theorem degenerate_bbox_aborts_copy (p1 p2 p3 p4 : Pt) (hasPixmap : Bool)
    (hdeg : bboxWidth p1 p2 p3 p4 ≤ 0 ∨ bboxHeight p1 p2 p3 p4 ≤ 0) :
    copy_selection_to_drag_layer [p1, p2, p3, p4] hasPixmap = none := by
  cases hasPixmap
  · simp [copy_selection_to_drag_layer]
  · rcases hdeg with h | h <;> simp [copy_selection_to_drag_layer, h]

theorem degenerate_bbox_aborts_copy_witness :
    (bboxWidth ⟨0, 0⟩ ⟨0, 1⟩ ⟨0, 2⟩ ⟨0, 3⟩ ≤ 0 ∨
      bboxHeight ⟨0, 0⟩ ⟨0, 1⟩ ⟨0, 2⟩ ⟨0, 3⟩ ≤ 0) ∧
    copy_selection_to_drag_layer [⟨0, 0⟩, ⟨0, 1⟩, ⟨0, 2⟩, ⟨0, 3⟩] true = none :=
  ⟨Or.inl (by decide),
   degenerate_bbox_aborts_copy _ _ _ _ true (Or.inl (by decide))⟩

/-- C3: on every free-drag move with two scene vanishing points
present, the new `layer_scale` is the clamped distance ratio to the
chosen vanishing point exactly as `specFreeDragScale` words it (chosen
by the smaller absolute `atan2` angle, encoded by the oracle applied to
the cross/dot products of the code; ratio falling back to `1.0` on a zero
stored initial distance; clamped to `[0.1, 2.0]`), and it overwrites
the previous scale: the result does not depend on the previous
`layer_scale`.  `cd1`/`cd2` are constrained to be the true distances
from the moved anchor to the two vanishing points. -/
theorem free_drag_scale_spec (vp1 vp2 : Pt) (rest : List Pt)
    (angleCmp : ℤ → ℤ → ℤ → ℤ → Bool)
    (lyr : PerspectiveLayer) (scene_pos : Pt) (cd1 cd2 : ℚ)
    (hcd1 : 0 ≤ cd1 ∧ cd1 ^ 2 =
      ((scene_pos.x - lyr.drag_offset.x - vp1.x : ℤ) : ℚ) ^ 2 +
      ((scene_pos.y - lyr.drag_offset.y - vp1.y : ℤ) : ℚ) ^ 2)
    (hcd2 : 0 ≤ cd2 ∧ cd2 ^ 2 =
      ((scene_pos.x - lyr.drag_offset.x - vp2.x : ℤ) : ℚ) ^ 2 +
      ((scene_pos.y - lyr.drag_offset.y - vp2.y : ℤ) : ℚ) ^ 2) :
    (layerDragMoveUpdate (vp1 :: vp2 :: rest) cd1 cd2 angleCmp lyr scene_pos).layer_scale =
      specFreeDragScale
        (angleCmp
          (det2d (ptSub ⟨scene_pos.x - lyr.drag_offset.x, scene_pos.y - lyr.drag_offset.y⟩
            lyr.initial_center) (ptSub vp1 lyr.initial_center))
          (dot2d (ptSub ⟨scene_pos.x - lyr.drag_offset.x, scene_pos.y - lyr.drag_offset.y⟩
            lyr.initial_center) (ptSub vp1 lyr.initial_center))
          (det2d (ptSub ⟨scene_pos.x - lyr.drag_offset.x, scene_pos.y - lyr.drag_offset.y⟩
            lyr.initial_center) (ptSub vp2 lyr.initial_center))
          (dot2d (ptSub ⟨scene_pos.x - lyr.drag_offset.x, scene_pos.y - lyr.drag_offset.y⟩
            lyr.initial_center) (ptSub vp2 lyr.initial_center)))
        cd1 cd2 lyr.initial_vp1_distance lyr.initial_vp2_distance ∧
    ∀ s : ℚ,
      (layerDragMoveUpdate (vp1 :: vp2 :: rest) cd1 cd2 angleCmp
        { lyr with layer_scale := s } scene_pos).layer_scale =
      (layerDragMoveUpdate (vp1 :: vp2 :: rest) cd1 cd2 angleCmp lyr scene_pos).layer_scale := by
  constructor
  · simp only [layerDragMoveUpdate, specFreeDragScale]
    split_ifs <;> simp_all
  · intro s
    simp only [layerDragMoveUpdate]

theorem free_drag_scale_spec_witness :
    ((0:ℚ) ≤ 5 ∧ (5:ℚ) ^ 2 =
      (((3:ℤ) - 0 - 0 : ℤ) : ℚ) ^ 2 + (((4:ℤ) - 0 - 0 : ℤ) : ℚ) ^ 2) ∧
    ((0:ℚ) ≤ 4 ∧ (4:ℚ) ^ 2 =
      (((3:ℤ) - 0 - 3 : ℤ) : ℚ) ^ 2 + (((4:ℤ) - 0 - 0 : ℤ) : ℚ) ^ 2) ∧
    (layerDragMoveUpdate [⟨0, 0⟩, ⟨3, 0⟩] 5 4 (fun _ _ _ _ => true)
        (mkPerspectiveLayer "w") ⟨3, 4⟩).layer_scale =
      specFreeDragScale true 5 4 (mkPerspectiveLayer "w").initial_vp1_distance
        (mkPerspectiveLayer "w").initial_vp2_distance :=
  ⟨⟨by norm_num, by norm_num⟩, ⟨by norm_num, by norm_num⟩,
   (free_drag_scale_spec ⟨0, 0⟩ ⟨3, 0⟩ [] (fun _ _ _ _ => true)
     (mkPerspectiveLayer "w") ⟨3, 4⟩ 5 4
     ⟨by norm_num, by norm_num [mkPerspectiveLayer]⟩
     ⟨by norm_num, by norm_num [mkPerspectiveLayer]⟩).1⟩

theorem wheelStep_mem (s : ℚ) (up : Bool) :
    1 / 10 ≤ wheelStep s up ∧ wheelStep s up ≤ 5 := by
  unfold wheelStep
  exact ⟨le_max_left _ _, max_le (by norm_num) (min_le_right _ _)⟩

theorem wheel_foldl_mem :
    ∀ (ups : List Bool) (s0 : ℚ), 1 / 10 ≤ s0 → s0 ≤ 5 →
      1 / 10 ≤ ups.foldl wheelStep s0 ∧ ups.foldl wheelStep s0 ≤ 5
  | [], s0, h1, h2 => ⟨h1, h2⟩
  | up :: ups, s0, _, _ =>
      wheel_foldl_mem ups (wheelStep s0 up) (wheelStep_mem s0 up).1 (wheelStep_mem s0 up).2

theorem applyDragSample_scale_mem (lyr : PerspectiveLayer) (smp : DragSample) :
    1 / 10 ≤ (applyDragSample lyr smp).layer_scale ∧
    (applyDragSample lyr smp).layer_scale ≤ 2 := by
  unfold applyDragSample layerDragMoveUpdate
  exact ⟨le_max_left _ _, max_le (by norm_num) (min_le_right _ _)⟩

theorem drag_foldl_mem :
    ∀ (smps : List DragSample) (lyr : PerspectiveLayer),
      1 / 10 ≤ lyr.layer_scale → lyr.layer_scale ≤ 2 →
      1 / 10 ≤ (smps.foldl applyDragSample lyr).layer_scale ∧
      (smps.foldl applyDragSample lyr).layer_scale ≤ 2
  | [], _, h1, h2 => ⟨h1, h2⟩
  | smp :: smps, lyr, _, _ =>
      drag_foldl_mem smps (applyDragSample lyr smp)
        (applyDragSample_scale_mem lyr smp).1 (applyDragSample_scale_mem lyr smp).2

/-- C4: starting from any `layer_scale` in `[0.1, 5.0]`, any sequence of
wheel zoom steps (multiply by `1.1` or `0.9`, then clamp) keeps it in
`[0.1, 5.0]`; and any (nonempty) sequence of free-drag scale updates
leaves it in `[0.1, 2.0]` — each free-drag update lands in that interval
regardless of the previous scale. -/
theorem scale_clamp_invariants :
    (∀ s0 : ℚ, 1 / 10 ≤ s0 → s0 ≤ 5 → ∀ ups : List Bool,
      1 / 10 ≤ ups.foldl wheelStep s0 ∧ ups.foldl wheelStep s0 ≤ 5) ∧
    (∀ (lyr : PerspectiveLayer) (smp : DragSample) (smps : List DragSample),
      1 / 10 ≤ ((smp :: smps).foldl applyDragSample lyr).layer_scale ∧
      ((smp :: smps).foldl applyDragSample lyr).layer_scale ≤ 2) := by
  constructor
  · intro s0 h1 h2 ups
    exact wheel_foldl_mem ups s0 h1 h2
  · intro lyr smp smps
    exact drag_foldl_mem smps (applyDragSample lyr smp)
      (applyDragSample_scale_mem lyr smp).1 (applyDragSample_scale_mem lyr smp).2

theorem scale_clamp_invariants_witness :
    ((1:ℚ) / 10 ≤ 1 ∧ (1:ℚ) ≤ 5) ∧
    (1 / 10 ≤ ([true] : List Bool).foldl wheelStep 1 ∧
      ([true] : List Bool).foldl wheelStep 1 ≤ 5) ∧
    (1 / 10 ≤ (([⟨⟨0, 0⟩, ⟨3, 0⟩, 5, 4, fun _ _ _ _ => true, ⟨3, 4⟩⟩] :
        List DragSample).foldl applyDragSample (mkPerspectiveLayer "w")).layer_scale ∧
      (([⟨⟨0, 0⟩, ⟨3, 0⟩, 5, 4, fun _ _ _ _ => true, ⟨3, 4⟩⟩] :
        List DragSample).foldl applyDragSample (mkPerspectiveLayer "w")).layer_scale ≤ 2) :=
  ⟨⟨by norm_num, by norm_num⟩,
   scale_clamp_invariants.1 1 (by norm_num) (by norm_num) [true],
   scale_clamp_invariants.2 (mkPerspectiveLayer "w")
     ⟨⟨0, 0⟩, ⟨3, 0⟩, 5, 4, fun _ _ _ _ => true, ⟨3, 4⟩⟩ []⟩

theorem swapAdjZ_append (pre : List PerspectiveLayer) (a b : PerspectiveLayer)
    (post : List PerspectiveLayer) :
    swapAdjZ (pre ++ a :: b :: post) pre.length =
      pre ++ { b with z_order := b.z_order - 1 } ::
        { a with z_order := a.z_order + 1 } :: post := by
  induction pre with
  | nil => rfl
  | cons x xs ih => simp [swapAdjZ, ih]

/-- C6: `move_layer_up` on the bottom-most of three layers followed by
`move_layer_down` restores the original list order, every original
`z_order` and the original selection exactly; and each single move swaps
the list positions of the two adjacent layers while transferring their
`z_order` values by `+1`/`-1`. -/
theorem move_up_down_roundtrip :
    (∀ (a b c : PerspectiveLayer) (vp : List Pt),
      move_layer_down (move_layer_up ⟨[a, b, c], 0, vp⟩) = ⟨[a, b, c], 0, vp⟩) ∧
    (∀ (pre post : List PerspectiveLayer) (a b : PerspectiveLayer) (vp : List Pt),
      move_layer_up ⟨pre ++ a :: b :: post, (pre.length : ℤ), vp⟩ =
        ⟨pre ++ { b with z_order := b.z_order - 1 } ::
          { a with z_order := a.z_order + 1 } :: post, (pre.length : ℤ) + 1, vp⟩) ∧
    (∀ (pre post : List PerspectiveLayer) (a b : PerspectiveLayer) (vp : List Pt),
      move_layer_down ⟨pre ++ a :: b :: post, (pre.length : ℤ) + 1, vp⟩ =
        ⟨pre ++ { b with z_order := b.z_order - 1 } ::
          { a with z_order := a.z_order + 1 } :: post, (pre.length : ℤ), vp⟩) := by
  refine ⟨?_, ?_, ?_⟩
  · intro a b c vp
    have h1 : move_layer_up ⟨[a, b, c], 0, vp⟩ =
        ⟨[{ b with z_order := b.z_order - 1 }, { a with z_order := a.z_order + 1 }, c],
          1, vp⟩ := by
      unfold move_layer_up
      rw [if_pos (by norm_num)]
      rfl
    rw [h1]
    unfold move_layer_down
    rw [if_pos (by norm_num)]
    simp [swapAdjZ]
  · intro pre post a b vp
    unfold move_layer_up
    rw [if_pos (by refine ⟨?_, ?_⟩ <;> simp [List.length_append] <;> omega)]
    dsimp only
    rw [Int.toNat_natCast, swapAdjZ_append]
  · intro pre post a b vp
    unfold move_layer_down
    rw [if_pos (by refine ⟨?_, ?_⟩ <;> simp [List.length_append] <;> omega)]
    dsimp only
    have ht : ((pre.length : ℤ) + 1).toNat - 1 = pre.length := by omega
    rw [ht, swapAdjZ_append]
    simp

theorem zInvFrom_append :
    ∀ (l : List PerspectiveLayer) (n : ℤ) (a : PerspectiveLayer),
      zInvFrom n l → a.z_order = n + l.length → zInvFrom n (l ++ [a])
  | [], n, a, _, ha => ⟨by simpa using ha, trivial⟩
  | x :: xs, n, a, h, ha =>
      ⟨h.1, zInvFrom_append xs (n + 1) a h.2 (by simp at ha ⊢; omega)⟩

theorem zInvFrom_swapAdjZ :
    ∀ (l : List PerspectiveLayer) (i : ℕ) (n : ℤ),
      i + 1 < l.length → zInvFrom n l → zInvFrom n (swapAdjZ l i)
  | _ :: _ :: _, 0, _, _, h => by
      obtain ⟨h1, h2, h3⟩ := h
      exact ⟨by simp [h2], by simp [h1], h3⟩
  | a :: rest, i + 1, n, hlen, h => by
      obtain ⟨h1, h2⟩ := h
      have hrec := zInvFrom_swapAdjZ rest i (n + 1) (by simp at hlen; omega) h2
      simp only [swapAdjZ, zInvFrom]
      exact ⟨h1, hrec⟩
  | [], _, _, hlen, _ => by simp at hlen
  | [_], 0, _, hlen, _ => by simp at hlen

theorem zInvFrom_getD :
    ∀ (l : List PerspectiveLayer) (n : ℤ) (k : ℕ) (d : PerspectiveLayer),
      zInvFrom n l → k < l.length → (l.getD k d).z_order = n + k
  | _ :: _, _, 0, _, h, _ => by simpa using h.1
  | a :: rest, n, k + 1, d, h, hk => by
      have := zInvFrom_getD rest (n + 1) k d h.2 (by simp at hk; omega)
      rw [List.getD_cons_succ]
      push_cast at this ⊢
      omega
  | [], _, _, _, _, hk => by simp at hk

theorem zInvFrom_le_of_mem :
    ∀ (l : List PerspectiveLayer) (n : ℤ),
      zInvFrom n l → ∀ x ∈ l, n ≤ x.z_order
  | [], _, _, x, hx => absurd hx (List.not_mem_nil x)
  | a :: rest, n, h, x, hx => by
      rcases List.mem_cons.mp hx with rfl | hx'
      · exact le_of_eq h.1.symm
      · have := zInvFrom_le_of_mem rest (n + 1) h.2 x hx'
        omega

theorem zInvFrom_pairwise :
    ∀ (l : List PerspectiveLayer) (n : ℤ),
      zInvFrom n l → l.Pairwise (fun p q => p.z_order < q.z_order)
  | [], _, _ => List.Pairwise.nil
  | a :: rest, n, h => by
      refine List.Pairwise.cons ?_ (zInvFrom_pairwise rest (n + 1) h.2)
      intro x hx
      have h1 := h.1
      have h2 := zInvFrom_le_of_mem rest (n + 1) h.2 x hx
      omega

theorem applyStackOp_zInvFrom (s : EditorState) (op : StackOp)
    (h : zInvFrom 0 s.layers) : zInvFrom 0 (applyStackOp s op).layers := by
  cases op with
  | add name =>
      exact zInvFrom_append s.layers 0
        { mkPerspectiveLayer name with z_order := (s.layers.length : ℤ) } h (by simp)
  | up =>
      show zInvFrom 0 (move_layer_up s).layers
      unfold move_layer_up
      split_ifs with hg
      · exact zInvFrom_swapAdjZ s.layers s.current_layer_idx.toNat 0 (by omega) h
      · exact h
  | down =>
      show zInvFrom 0 (move_layer_down s).layers
      unfold move_layer_down
      split_ifs with hg
      · exact zInvFrom_swapAdjZ s.layers (s.current_layer_idx.toNat - 1) 0 (by omega) h
      · exact h
  | select i => exact h

theorem foldl_stackOps_zInvFrom :
    ∀ (ops : List StackOp) (s : EditorState),
      zInvFrom 0 s.layers → zInvFrom 0 ((ops.foldl applyStackOp s)).layers
  | [], _, h => h
  | op :: ops, s, h =>
      foldl_stackOps_zInvFrom ops (applyStackOp s op) (applyStackOp_zInvFrom s op h)

/-- C9: starting from the empty layer stack, after any sequence of
add-layer, move-up, move-down (and layer-selection) operations, every
layer has `z_order` equal to its index in the layer list, so the layers are
strictly sorted by `z_order` and the ascending-`z_order` paint traversal
visits them exactly in list order. -/
theorem z_order_equals_index (ops : List StackOp) :
    (∀ k : ℕ, k < (runStackOps ops).layers.length →
      ((runStackOps ops).layers.getD k (mkPerspectiveLayer "")).z_order = (k : ℤ)) ∧
    (runStackOps ops).layers.Pairwise (fun p q => p.z_order < q.z_order) := by
  have h : zInvFrom 0 (runStackOps ops).layers :=
    foldl_stackOps_zInvFrom ops ⟨[], -1, []⟩ trivial
  constructor
  · intro k hk
    have := zInvFrom_getD (runStackOps ops).layers 0 k (mkPerspectiveLayer "") h hk
    omega
  · exact zInvFrom_pairwise (runStackOps ops).layers 0 h

theorem z_order_equals_index_witness :
    0 < (runStackOps [StackOp.add "a", StackOp.add "b", StackOp.select 0,
      StackOp.up]).layers.length ∧
    ((runStackOps [StackOp.add "a", StackOp.add "b", StackOp.select 0,
      StackOp.up]).layers.getD 0 (mkPerspectiveLayer "")).z_order = (0 : ℤ) :=
  ⟨by decide, (z_order_equals_index _).1 0 (by decide)⟩

theorem modifyAt_length (f : PerspectiveLayer → PerspectiveLayer) :
    ∀ (l : List PerspectiveLayer) (i : ℕ), (modifyAt f l i).length = l.length
  | [], _ => rfl
  | _ :: _, 0 => rfl
  | a :: rest, i + 1 => by simp [modifyAt, modifyAt_length f rest i]

theorem modifyAt_getD_self (f : PerspectiveLayer → PerspectiveLayer) :
    ∀ (l : List PerspectiveLayer) (i : ℕ) (d : PerspectiveLayer),
      i < l.length → (modifyAt f l i).getD i d = f (l.getD i d)
  | _ :: _, 0, _, _ => rfl
  | a :: rest, i + 1, d, hk => by
      simpa [modifyAt] using modifyAt_getD_self f rest i d (by simp at hk; omega)
  | [], _, _, hk => by simp at hk

theorem modifyAt_getD_ne (f : PerspectiveLayer → PerspectiveLayer) :
    ∀ (l : List PerspectiveLayer) (i k : ℕ) (d : PerspectiveLayer),
      k ≠ i → (modifyAt f l i).getD k d = l.getD k d
  | [], _, _, _, _ => by simp [modifyAt]
  | _ :: _, 0, 0, _, hne => absurd rfl hne
  | _ :: _, 0, _ + 1, _, _ => by simp [modifyAt]
  | _ :: _, _ + 1, 0, _, _ => by simp [modifyAt]
  | _ :: rest, i + 1, k + 1, d, hne => by
      simpa [modifyAt] using modifyAt_getD_ne f rest i k d (by omega)

/-- C10: clearing the points of the current layer also empties the single
scene-wide vanishing-point pair shared by all layers, so a subsequent
free-drag move derives no scale from it until it is recomputed; no
other field of any layer is changed (see `clearPointsEffect`). -/
theorem clear_points_clears_scene_vps (s : EditorState)
    (h : 0 ≤ s.current_layer_idx ∧ s.current_layer_idx < (s.layers.length : ℤ)) :
    clearPointsEffect s := by
  have e : clear_points s =
      { s with
        layers := modifyAt (fun l => { l with points := [], selection_points := [] })
          s.layers s.current_layer_idx.toNat
        primary_vp := [] } := by
    unfold clear_points
    rw [if_pos h]
  have hi : s.current_layer_idx.toNat < s.layers.length := by omega
  have hself := modifyAt_getD_self
    (fun l => { l with points := [], selection_points := [] })
    s.layers s.current_layer_idx.toNat (mkPerspectiveLayer "") hi
  simp only [clearPointsEffect]
  rw [e]
  exact ⟨rfl, by rw [hself], by rw [hself], by rw [hself], by rw [hself],
    by rw [hself], by rw [hself], by rw [hself], by rw [hself], by rw [hself],
    by rw [hself], by rw [hself], by rw [hself], by rw [hself], by rw [hself],
    by rw [hself], by rw [hself], by rw [hself], by rw [hself], by rw [hself],
    by rw [hself], by rw [hself],
    fun k hk => modifyAt_getD_ne _ s.layers s.current_layer_idx.toNat k
      (mkPerspectiveLayer "") hk,
    rfl, modifyAt_length _ s.layers s.current_layer_idx.toNat,
    fun _ _ _ _ _ => rfl⟩

theorem clear_points_clears_scene_vps_witness :
    (0 ≤ (⟨[{ mkPerspectiveLayer "x" with points := [⟨1, 2⟩], selection_points := [⟨1, 2⟩] }], 0, [⟨7, 8⟩]⟩ : EditorState).current_layer_idx ∧
      (⟨[{ mkPerspectiveLayer "x" with points := [⟨1, 2⟩], selection_points := [⟨1, 2⟩] }], 0, [⟨7, 8⟩]⟩ : EditorState).current_layer_idx <
        ((⟨[{ mkPerspectiveLayer "x" with points := [⟨1, 2⟩], selection_points := [⟨1, 2⟩] }], 0, [⟨7, 8⟩]⟩ : EditorState).layers.length : ℤ)) ∧
    clearPointsEffect ⟨[{ mkPerspectiveLayer "x" with points := [⟨1, 2⟩], selection_points := [⟨1, 2⟩] }], 0, [⟨7, 8⟩]⟩ :=
  ⟨⟨by decide, by decide⟩,
   clear_points_clears_scene_vps _ ⟨by decide, by decide⟩⟩

end Editor
